import Mathlib

/-!
# Shallow embedding of the blenderlib animation & camera extraction pipeline

This file embeds the extraction routines of `pylib/animation.py`,
`pylib/dynamic.py`, `pylib/camera.py` and `pylib/utils.py` as executable
Lean definitions and proves / refutes the specified properties about them.

Modelling conventions:
* Blender's `mathutils` 4x4 matrices become `Matrix (Fin 4) (Fin 4) ℚ`;
  multiplying a 4x4 matrix with a 3-vector treats the vector as a point
  (homogeneous coordinate 1) as `mathutils` does.
* The scene's global mutable current-frame (`bpy.context.scene.frame_current`
  and `frame_set`) becomes an explicit `Scene` state threaded through every
  function that the Python code lets touch it.
* Host accessors that can raise (`bpy` lookups, depsgraph evaluation,
  a missing active UV layer) are modelled with `Option`: `none` models a
  raised Python exception propagating out of the function at that point.
* numpy float arithmetic is modelled by exact rationals, except where the
  IEEE special values matter: division (used by weight normalization) is
  modelled by `NpVal`, which has `nan` / `inf` / `ninf` values so that the
  numpy behaviour `0.0 / 0.0 = nan` is kept.
-/

namespace Blender

/-- A 3-D point / vector (`mathutils.Vector` of length 3), exact rationals. -/
structure Vec3 where
  x : ℚ
  y : ℚ
  z : ℚ
deriving DecidableEq, Repr

/-- A 4x4 transform (`mathutils.Matrix`). -/
abbrev Mat4 := Matrix (Fin 4) (Fin 4) ℚ

/-- The `mathutils` product `M @ v` of a 4x4 matrix with a 3-vector: the vector is
treated as a point with homogeneous coordinate 1 and the first three rows of
the result are returned. -/
def applyPoint (m : Mat4) (v : Vec3) : Vec3 where
  x := m 0 0 * v.x + m 0 1 * v.y + m 0 2 * v.z + m 0 3
  y := m 1 0 * v.x + m 1 1 * v.y + m 1 2 * v.z + m 1 3
  z := m 2 0 * v.x + m 2 1 * v.y + m 2 2 * v.z + m 2 3

/-- Computable 4x4 matrix inverse over ℚ (`mathutils.Matrix.inverted()` /
`numpy.linalg`): `det⁻¹ • adjugate`, which agrees with Mathlib's
noncomputable `Inv.inv` on matrices over a field (see `inv4_eq_inv`). -/
def inv4 (A : Mat4) : Mat4 := A.det⁻¹ • A.adjugate

/-- Over the field ℚ the computable `inv4` is exactly Mathlib's matrix
inverse. -/
theorem inv4_eq_inv (A : Mat4) : inv4 A = A⁻¹ := by
  rw [Matrix.inv_def, inv4, Ring.inverse_eq_inv]

/-- The scene's global mutable state the pipeline can touch: the current
animation frame (`bpy.context.scene.frame_current`). -/
structure Scene where
  frame_current : Int
deriving DecidableEq, Repr

/-- Models `bpy.context.scene.frame_set(f)`. -/
def frame_set (_s : Scene) (f : Int) : Scene := ⟨f⟩

/-- Python `range(start, stop + 1)`: the integer frames `start, start+1, ..., stop`
(empty when `stop < start`). -/
def frameRange (start stop : Int) : List Int :=
  (List.range (stop + 1 - start).toNat).map (fun i => start + (i : Int))

/-- One bone of `armature.data.bones`: name, optional parent name, local
rest transform and local rest head/tail points. -/
structure BoneData where
  name : String
  parent : Option String
  matrix_local : Mat4
  head_local : Vec3
  tail_local : Vec3
deriving DecidableEq, Repr

/-- An armature object.  `bones` is `armature.data.bones` in declaration
order.  The pose accessors model `armature.pose.bones[name].matrix` /
`.head` / `.tail`, which in Blender depend on the scene's current frame;
here they are explicit functions of the frame.  `frame_range` is
`armature.animation_data.action.frame_range` already truncated to `int`s
as the Python code does. -/
structure ArmatureObj where
  bones : List BoneData
  poseMatrix : Int → String → Mat4
  poseHead : Int → String → Vec3
  poseTail : Int → String → Vec3
  matrix_world : Mat4
  frame_range : Int × Int

/-- One membership record `grp` of `vertex.groups`: a vertex-group index and
a weight. -/
structure VertexGroupEntry where
  group : Nat
  weight : ℚ
deriving DecidableEq, Repr

/-- One vertex of `mesh.data.vertices`: local rest coordinate and its
vertex-group memberships. -/
structure VertexData where
  co : Vec3
  groups : List VertexGroupEntry
deriving DecidableEq, Repr

/-- A mesh object.  `vertex_groups` is the list of vertex-group names
(`mesh.vertex_groups`, by index).  `uv_active` models
`mesh.data.uv_layers.active.data` (`none` when there is no active UV layer,
in which case the Python attribute access raises).  `evalVerts f` models the
vertex coordinates of the depsgraph-evaluated (post-modifier) mesh at frame
`f` (`bmesh.from_object(mesh, depsgraph)`); `none` models a host failure at
that frame. -/
structure MeshObj where
  vertices : List VertexData
  polygons : List (List Nat)
  polygonLoops : List (List Nat)
  uv_active : Option (List (ℚ × ℚ))
  vertex_groups : List String
  matrix_world : Mat4
  evalVerts : Int → Option (List Vec3)

/-- numpy float values as used by the weight-normalization code: exact
rationals plus the IEEE special values that division can produce. -/
inductive NpVal where
  | val (q : ℚ)
  | nan
  | inf
  | ninf
deriving DecidableEq, Repr

/-- numpy float division: division by zero yields `nan` for `0/0` and a
signed infinity otherwise; all other cases are exact. -/
def npDiv (a b : ℚ) : NpVal :=
  if b = 0 then
    if a = 0 then .nan else if 0 < a then .inf else .ninf
  else .val (a / b)

/-- numpy float addition on `NpVal` (only the cases reachable here matter:
`nan` is absorbing, `inf + ninf = nan`). -/
def npAdd : NpVal → NpVal → NpVal
  | .nan, _ => .nan
  | _, .nan => .nan
  | .inf, .ninf => .nan
  | .ninf, .inf => .nan
  | .inf, _ => .inf
  | _, .inf => .inf
  | .ninf, _ => .ninf
  | _, .ninf => .ninf
  | .val a, .val b => .val (a + b)

/-- Models `row.sum()` over numpy float values. -/
def npSum (l : List NpVal) : NpVal := l.foldr npAdd (.val 0)

/-- Is a numpy value a finite number within `tol` of 1? (`nan`/`inf`
compare false, as in IEEE.) -/
def npIsNearOne (x : NpVal) (tol : ℚ) : Bool :=
  match x with
  | .val q => |q - 1| ≤ tol
  | _ => false

end Blender

namespace camera

open Blender

/-- The `bpy.context.scene.render` resolution settings. -/
structure RenderSettings where
  resolution_x : ℚ
  resolution_y : ℚ
  resolution_percentage : ℚ
deriving DecidableEq, Repr

/-- A camera object: `camera.data.angle` (horizontal field of view in
radians, as an exact sample point) and the camera's world transform. -/
structure CameraObj where
  angle : ℚ
  matrix_world : Mat4

/-- The pair returned by `extract_camera_data` / `get_intrin_extrin`. -/
structure CameraData where
  intrin : Matrix (Fin 3) (Fin 3) ℚ
  extrin : Mat4

/-- The fixed Blender→OpenCV axis-flip matrix `diag(1,-1,-1,1)` built in
`extract_camera_data`. -/
def opencvFlip : Mat4 :=
  Matrix.of ![![1, 0, 0, 0], ![0, -1, 0, 0], ![0, 0, -1, 0], ![0, 0, 0, 1]]

/-- From `pylib/camera.py, extract_camera_data`.  The transcendental host
function `np.tan` is passed in as an explicit function argument `tan`. -/
def extract_camera_data (tan : ℚ → ℚ) (render : RenderSettings)
    (camera_obj : CameraObj) (opencv_format : Bool) : CameraData :=
  let resolution_x := render.resolution_x * render.resolution_percentage / 100
  let resolution_y := render.resolution_y * render.resolution_percentage / 100
  let aspect_ratio := resolution_x / resolution_y
  let fx := 0.5 * resolution_x / tan (0.5 * camera_obj.angle)
  let fy := 0.5 * resolution_x / tan (0.5 * camera_obj.angle) * aspect_ratio
  let cx := 0.5 * resolution_x
  let cy := 0.5 * resolution_y
  let intrin : Matrix (Fin 3) (Fin 3) ℚ :=
    Matrix.of ![![fx, 0, cx], ![0, fy, cy], ![0, 0, 1]]
  let extrin := inv4 camera_obj.matrix_world
  if opencv_format then
    { intrin := intrin, extrin := opencvFlip * extrin }
  else
    { intrin := intrin, extrin := extrin }

/-- From `pylib/utils.py, get_intrin_extrin` (same computation without the
OpenCV branch). -/
def get_intrin_extrin (tan : ℚ → ℚ) (render : RenderSettings)
    (camera : CameraObj) : CameraData :=
  let resolution_x := render.resolution_x * render.resolution_percentage / 100
  let resolution_y := render.resolution_y * render.resolution_percentage / 100
  let aspect_ratio := resolution_x / resolution_y
  let fx := 0.5 * resolution_x / tan (0.5 * camera.angle)
  let fy := 0.5 * resolution_x / tan (0.5 * camera.angle) * aspect_ratio
  let cx := 0.5 * resolution_x
  let cy := 0.5 * resolution_y
  let intrin : Matrix (Fin 3) (Fin 3) ℚ :=
    Matrix.of ![![fx, 0, cx], ![0, fy, cy], ![0, 0, 1]]
  let extrin := inv4 camera.matrix_world
  { intrin := intrin, extrin := extrin }

end camera

namespace animation

open Blender

/-- From `pylib/animation.py, extract_bone_data`.  The bone is looked up by name
(`armature.data.bones[bone_name]` resolves to the first bone with that name;
a missing name raises, modelled by `none`).  The pose branch reads the
pose-state accessors at the scene's current frame. -/
def extract_bone_data (armature_obj : ArmatureObj) (bone_name : String)
    (rest_space : Bool) (s : Scene) : Option (Mat4 × Vec3 × Vec3) :=
  let matrix_world := armature_obj.matrix_world
  if rest_space then
    match armature_obj.bones.find? (fun b => b.name = bone_name) with
    | none => none
    | some bone =>
      some (matrix_world * bone.matrix_local,
            applyPoint matrix_world bone.tail_local,
            applyPoint matrix_world bone.head_local)
  else
    if armature_obj.bones.any (fun b => b.name = bone_name) then
      some (matrix_world * armature_obj.poseMatrix s.frame_current bone_name,
            applyPoint matrix_world (armature_obj.poseTail s.frame_current bone_name),
            applyPoint matrix_world (armature_obj.poseHead s.frame_current bone_name))
    else none

/-- From `pylib/animation.py, extract_mesh_data`.  Reads no frame-dependent
state; the scene is threaded to show this (it is returned unchanged on both
paths).  A missing active UV layer makes the Python attribute access raise
(`none`). -/
def extract_mesh_data (mesh_obj : MeshObj) (s : Scene) :
    Scene × Option (List Vec3 × List (List Nat) × List (ℚ × ℚ) × List (List Nat)) :=
  let verts := mesh_obj.vertices.map (fun v => applyPoint mesh_obj.matrix_world v.co)
  let faces := mesh_obj.polygons
  let faces_uvs := mesh_obj.polygonLoops
  match mesh_obj.uv_active with
  | none => (s, none)
  | some uvdata => (s, some (verts, faces, uvdata, faces_uvs))

/-- The frame loop of `extract_verts_data`: for each frame, set the scene's
frame, evaluate the mesh through the depsgraph, and record the world-space
vertex positions.  A host failure (`none` from `evalVerts`) propagates
immediately, leaving the scene at the failing frame. -/
def sampleVertsLoop (mesh_obj : MeshObj) (frames : List Int) (s : Scene)
    (acc : List (List Vec3)) : Scene × Option (List (List Vec3)) :=
  match frames with
  | [] => (s, some acc)
  | f :: rest =>
    let s1 := frame_set s f
    match mesh_obj.evalVerts f with
    | none => (s1, none)
    | some vs =>
      sampleVertsLoop mesh_obj rest s1
        (acc ++ [vs.map (fun v => applyPoint mesh_obj.matrix_world v)])

/-- From `pylib/animation.py, extract_verts_data`.  Saves the current frame,
samples every frame of the action's range, and resets the frame afterwards.
The reset (`frame_set(init_frame_id)`) is only executed on normal
completion: there is no `try/finally`, so an exception raised mid-range
propagates with the scene left at the failing frame. -/
def extract_verts_data (mesh_obj : MeshObj) (armature_obj : ArmatureObj)
    (s : Scene) : Scene × Option (List (List Vec3)) :=
  let init_frame_id := s.frame_current
  let frame_start := armature_obj.frame_range.1
  let frame_end := armature_obj.frame_range.2
  match sampleVertsLoop mesh_obj (frameRange frame_start frame_end) s [] with
  | (s1, none) => (s1, none)
  | (s1, some verts) => (frame_set s1 init_frame_id, some verts)

/-- The per-bone arrays collected by the `rest_space=True` branch of
`extract_skeleton_data`. -/
structure SkelRest where
  bnames : List String
  bnames_parent : List (Option String)
  matrixs : List Mat4
  tails : List Vec3
  heads : List Vec3
deriving DecidableEq

/-- The per-bone loop of the rest branch of `extract_skeleton_data`. -/
def restLoop (armature_obj : ArmatureObj) (s : Scene) :
    List BoneData → Option SkelRest
  | [] => some ⟨[], [], [], [], []⟩
  | bone :: rest =>
    match extract_bone_data armature_obj bone.name true s with
    | none => none
    | some (matrix, tail, head) =>
      match restLoop armature_obj s rest with
      | none => none
      | some acc =>
        some ⟨bone.name :: acc.bnames, bone.parent :: acc.bnames_parent,
              matrix :: acc.matrixs, tail :: acc.tails, head :: acc.heads⟩

/-- The inner per-bone loop of the pose branch of `extract_skeleton_data`:
read every bone's pose state at the scene's current frame. -/
def poseBonesAtFrame (armature_obj : ArmatureObj) (s : Scene) :
    List BoneData → Option (List Mat4 × List Vec3 × List Vec3)
  | [] => some ([], [], [])
  | bone :: rest =>
    match extract_bone_data armature_obj bone.name false s with
    | none => none
    | some (matrix, tail, head) =>
      match poseBonesAtFrame armature_obj s rest with
      | none => none
      | some (ms, ts, hs) => some (matrix :: ms, tail :: ts, head :: hs)

/-- The frame loop of the pose branch of `extract_skeleton_data`. -/
def poseLoop (armature_obj : ArmatureObj) (frames : List Int) (s : Scene)
    (accM : List (List Mat4)) (accT : List (List Vec3)) (accH : List (List Vec3)) :
    Scene × Option (List (List Mat4) × List (List Vec3) × List (List Vec3)) :=
  match frames with
  | [] => (s, some (accM, accT, accH))
  | f :: rest =>
    let s1 := frame_set s f
    match poseBonesAtFrame armature_obj s1 armature_obj.bones with
    | none => (s1, none)
    | some (ms, ts, hs) =>
      poseLoop armature_obj rest s1 (accM ++ [ms]) (accT ++ [ts]) (accH ++ [hs])

/-- The two return shapes of `extract_skeleton_data` (the Python function
returns a 5-tuple in the rest branch and a 3-tuple in the pose branch). -/
inductive SkelResult where
  | rest (r : SkelRest)
  | pose (matrixs : List (List Mat4)) (tails : List (List Vec3)) (heads : List (List Vec3))

/-- From `pylib/animation.py, extract_skeleton_data`.  The rest branch never
touches the frame cursor; the pose branch saves the current frame, iterates
the action's frame range, and resets the frame on normal completion only. -/
def extract_skeleton_data (armature_obj : ArmatureObj) (rest_space : Bool)
    (s : Scene) : Scene × Option SkelResult :=
  if rest_space then
    (s, (restLoop armature_obj s armature_obj.bones).map SkelResult.rest)
  else
    let init_frame_id := s.frame_current
    let frame_start := armature_obj.frame_range.1
    let frame_end := armature_obj.frame_range.2
    match poseLoop armature_obj (frameRange frame_start frame_end) s [] [] [] with
    | (s1, none) => (s1, none)
    | (s1, some (ms, ts, hs)) =>
      (frame_set s1 init_frame_id, some (SkelResult.pose ms ts hs))

/-- The map `vg_to_bone_map`: for each vertex-group name, the index of the bone with
that name (`bone_names.index`, i.e. the first match), or `None`. -/
def vg_to_bone_map (armature_obj : ArmatureObj) (mesh_obj : MeshObj) :
    List (Option Nat) :=
  let bone_names := armature_obj.bones.map (fun b => b.name)
  mesh_obj.vertex_groups.map (fun vg_name =>
    if vg_name ∈ bone_names then some (bone_names.indexOf vg_name) else none)

/-- The inner membership loop of `extract_skinning_weights_data` for one
vertex: starting from a zero row, `weights[i, bone_id] = grp.weight` for
each membership whose group maps to a bone (an assignment, overwriting any
earlier write).  A membership's group index is in range for
`mesh.vertex_groups` by a host invariant; out-of-range indices are treated
as unmatched here. -/
def rowOfVertex (vmap : List (Option Nat)) (n_bones : Nat) (v : VertexData) :
    List ℚ :=
  v.groups.foldl
    (fun row grp =>
      match vmap.getD grp.group none with
      | none => row
      | some bone_id => row.set bone_id grp.weight)
    (List.replicate n_bones 0)

/-- The raw (pre-normalization) weight matrix of
`extract_skinning_weights_data`, one row per vertex. -/
def rawWeights (armature_obj : ArmatureObj) (mesh_obj : MeshObj) :
    List (List ℚ) :=
  mesh_obj.vertices.map
    (rowOfVertex (vg_to_bone_map armature_obj mesh_obj) armature_obj.bones.length)

/-- From `pylib/animation.py, extract_skinning_weights_data`.  When `normalize`
is set, every row is divided by its own sum — with no guard: a zero-sum row
is divided by `0.0`, so numpy produces `nan` entries (`0.0 / 0.0`). -/
def extract_skinning_weights_data (armature_obj : ArmatureObj)
    (mesh_obj : MeshObj) (normalize : Bool) : List (List NpVal) :=
  let raw := rawWeights armature_obj mesh_obj
  if normalize then
    raw.map (fun row => row.map (fun w => npDiv w row.sum))
  else
    raw.map (fun row => row.map NpVal.val)

/-- The record returned by `extract_all_data`. -/
structure AllData where
  bnames : List String
  bnames_parent : List (Option String)
  rest_matrixs : List Mat4
  rest_tails : List Vec3
  rest_heads : List Vec3
  rest_verts : List Vec3
  faces : List (List Nat)
  verts_uvs : List (ℚ × ℚ)
  faces_uvs : List (List Nat)
  lbs_weights : List (List NpVal)
  pose_matrixs : List (List Mat4)
  pose_tails : List (List Vec3)
  pose_heads : List (List Vec3)
  pose_verts : List (List Vec3)

/-- From `pylib/animation.py, extract_all_data`.  The scene-object lookups
(`get_armature` / `get_mesh`) and the in-place `triangulate_mesh` host
operation are modelled by taking the (already triangulated) armature and
mesh objects as arguments.  Any exception from a sub-extraction propagates
(`none`), carrying the scene state reached at that point. -/
def extract_all_data (armature_obj : ArmatureObj) (mesh_obj : MeshObj)
    (s : Scene) : Scene × Option AllData :=
  match extract_skeleton_data armature_obj true s with
  | (s1, some (SkelResult.rest skel)) =>
    (match extract_mesh_data mesh_obj s1 with
     | (s2, some (rest_verts, faces, verts_uvs, faces_uvs)) =>
       let lbs_weights := extract_skinning_weights_data armature_obj mesh_obj true
       (match extract_skeleton_data armature_obj false s2 with
        | (s3, some (SkelResult.pose pose_matrixs pose_tails pose_heads)) =>
          (match extract_verts_data mesh_obj armature_obj s3 with
           | (s4, some pose_verts) =>
             (s4, some ⟨skel.bnames, skel.bnames_parent, skel.matrixs,
                        skel.tails, skel.heads, rest_verts, faces, verts_uvs,
                        faces_uvs, lbs_weights, pose_matrixs, pose_tails,
                        pose_heads, pose_verts⟩)
           | (s4, none) => (s4, none))
        -- the rest/pose branches cannot return the other shape
        | (s3, some (SkelResult.rest _)) => (s3, none)
        | (s3, none) => (s3, none))
     | (s2, none) => (s2, none))
  | (s1, some (SkelResult.pose _ _ _)) => (s1, none)
  | (s1, none) => (s1, none)

end animation

namespace dynamic

open Blender

/-- From `pylib/dynamic.py, extract_rest_joints`: the rest state of one bone
(`rest_matrix` is canonical → world rest). -/
def extract_rest_joints (armature : ArmatureObj) (bone_name : String) :
    Option (Mat4 × Vec3 × Vec3) :=
  match armature.bones.find? (fun b => b.name = bone_name) with
  | none => none
  | some bone =>
    let matrix_world := armature.matrix_world
    some (matrix_world * bone.matrix_local,
          applyPoint matrix_world bone.tail_local,
          applyPoint matrix_world bone.head_local)

/-- From `pylib/dynamic.py, extract_pose_joints`: `matrix_world @
armature.pose.bones[bone_name].matrix` at the scene's current frame. -/
def extract_pose_joints (armature : ArmatureObj) (bone_name : String)
    (s : Scene) : Option Mat4 :=
  if armature.bones.any (fun b => b.name = bone_name) then
    some (armature.matrix_world * armature.poseMatrix s.frame_current bone_name)
  else none

/-- The data dictionary built by `extract_joints`. -/
structure JointsData where
  names : List String
  parents : List (Option String)
  rest_loc_tail : List Vec3
  rest_loc_head : List Vec3
  rest_matrix : List Mat4
  pose_matrix : List (List Mat4)

/-- The rest-state bone loop of `extract_joints`. -/
def jointsRestLoop (armature : ArmatureObj) : List BoneData →
    Option (List String × List (Option String) × List Vec3 × List Vec3 × List Mat4)
  | [] => some ([], [], [], [], [])
  | bone :: rest =>
    match extract_rest_joints armature bone.name with
    | none => none
    | some (rest_matrix, rest_loc_tail, rest_loc_head) =>
      match jointsRestLoop armature rest with
      | none => none
      | some (ns, ps, ts, hs, ms) =>
        some (bone.name :: ns, bone.parent :: ps, rest_loc_tail :: ts,
              rest_loc_head :: hs, rest_matrix :: ms)

/-- The per-frame bone loop of `extract_joints`'s pose part. -/
def jointsPoseBones (armature : ArmatureObj) (s : Scene) : List BoneData →
    Option (List Mat4)
  | [] => some []
  | bone :: rest =>
    match extract_pose_joints armature bone.name s with
    | none => none
    | some pose_matrix =>
      match jointsPoseBones armature s rest with
      | none => none
      | some ms => some (pose_matrix :: ms)

/-- The frame loop of `extract_joints`'s pose part. -/
def jointsPoseLoop (armature : ArmatureObj) (frames : List Int) (s : Scene)
    (acc : List (List Mat4)) : Scene × Option (List (List Mat4)) :=
  match frames with
  | [] => (s, some acc)
  | f :: rest =>
    let s1 := frame_set s f
    match jointsPoseBones armature s1 armature.bones with
    | none => (s1, none)
    | some ms => jointsPoseLoop armature rest s1 (acc ++ [ms])

/-- From `pylib/dynamic.py, extract_joints`.  Saves the current frame, collects
the rest state of every bone, then steps the action's frame range
collecting every bone's pose matrix; the frame is reset on normal
completion only (no `try/finally`). -/
def extract_joints (armature : ArmatureObj) (s : Scene) :
    Scene × Option JointsData :=
  let init_frame_id := s.frame_current
  let frame_start := armature.frame_range.1
  let frame_end := armature.frame_range.2
  match jointsRestLoop armature armature.bones with
  | none => (s, none)
  | some (ns, ps, ts, hs, ms) =>
    match jointsPoseLoop armature (frameRange frame_start frame_end) s [] with
    | (s1, none) => (s1, none)
    | (s1, some pms) =>
      (frame_set s1 init_frame_id, some ⟨ns, ps, ts, hs, ms, pms⟩)

/-- From `pylib/dynamic.py, extract_verts` — textually the same frame-sampling
loop as `animation.extract_verts_data`. -/
def extract_verts (armature : ArmatureObj) (mesh : MeshObj) (s : Scene) :
    Scene × Option (List (List Vec3)) :=
  let init_frame_id := s.frame_current
  let frame_start := armature.frame_range.1
  let frame_end := armature.frame_range.2
  match animation.sampleVertsLoop mesh (frameRange frame_start frame_end) s [] with
  | (s1, none) => (s1, none)
  | (s1, some verts) => (frame_set s1 init_frame_id, some verts)

/-- From `pylib/dynamic.py, extract_skinning_weights` — textually identical to
`animation.extract_skinning_weights_data`. -/
def extract_skinning_weights (armature : ArmatureObj) (mesh : MeshObj)
    (normalize : Bool) : List (List NpVal) :=
  animation.extract_skinning_weights_data armature mesh normalize

end dynamic

open Blender

/-- C4: camera extraction returns the pinhole intrinsic
`[[fx,0,cx],[0,fy,cy],[0,0,1]]` with `fx = 0.5*res_x/tan(0.5*fov_x)`,
`fy = fx*(res_x/res_y)`, `cx = 0.5*res_x`, `cy = 0.5*res_y` (resolutions
after percentage scaling), in both `extract_camera_data` and
`get_intrin_extrin`; in particular for a square 512x512 resolution
`fx = fy` and `cx = cy = 256`. -/
theorem C4_camera_intrinsic (tan : ℚ → ℚ) (render : camera.RenderSettings)
    (cam : camera.CameraObj) (opencv_format : Bool) :
    (camera.extract_camera_data tan render cam opencv_format).intrin =
      Matrix.of
        ![![0.5 * (render.resolution_x * render.resolution_percentage / 100) /
              tan (0.5 * cam.angle), 0,
            0.5 * (render.resolution_x * render.resolution_percentage / 100)],
          ![0, (0.5 * (render.resolution_x * render.resolution_percentage / 100) /
                  tan (0.5 * cam.angle)) *
                ((render.resolution_x * render.resolution_percentage / 100) /
                 (render.resolution_y * render.resolution_percentage / 100)),
            0.5 * (render.resolution_y * render.resolution_percentage / 100)],
          ![0, 0, 1]] ∧
    (camera.get_intrin_extrin tan render cam).intrin =
      (camera.extract_camera_data tan render cam opencv_format).intrin ∧
    (render.resolution_x * render.resolution_percentage / 100 = 512 →
     render.resolution_y * render.resolution_percentage / 100 = 512 →
     (camera.extract_camera_data tan render cam opencv_format).intrin =
       Matrix.of
         ![![0.5 * (render.resolution_x * render.resolution_percentage / 100) /
               tan (0.5 * cam.angle), 0, 256],
           ![0, 0.5 * (render.resolution_x * render.resolution_percentage / 100) /
                 tan (0.5 * cam.angle), 256],
           ![0, 0, 1]]) := by
  refine ⟨?_, ?_, ?_⟩
  · cases opencv_format <;> rfl
  · cases opencv_format <;> rfl
  · intro hx hy
    cases opencv_format <;>
      · simp only [camera.extract_camera_data]
        rw [hx, hy]
        norm_num

/-- Witness for C4 at a concrete 512x512 render with `tan(0.5*fov) = 1`. -/
theorem C4_camera_intrinsic_witness :
    ((512 : ℚ) * 100 / 100 = 512) ∧
    (camera.extract_camera_data (fun _ => 1) ⟨512, 512, 100⟩ ⟨4/5, 1⟩ false).intrin =
      Matrix.of ![![256, 0, 256], ![0, 256, 256], ![0, 0, 1]] :=
  ⟨by norm_num, by
    rw [(C4_camera_intrinsic (fun _ => 1) ⟨512, 512, 100⟩ ⟨4/5, 1⟩ false).2.2
        (by norm_num) (by norm_num)]
    norm_num⟩

/-- C5: with `opencv_format`, the returned extrinsic is the fixed axis-flip
`diag(1,-1,-1,1)` premultiplied onto the inverse of the camera's world
transform, and applying the flip twice returns the original extrinsic
(the flip is its own inverse). -/
theorem C5_opencv_extrinsic (tan : ℚ → ℚ) (render : camera.RenderSettings)
    (cam : camera.CameraObj) :
    (camera.extract_camera_data tan render cam true).extrin =
      camera.opencvFlip * cam.matrix_world⁻¹ ∧
    (∀ E : Mat4, camera.opencvFlip * (camera.opencvFlip * E) = E) := by
  constructor
  · show camera.opencvFlip * inv4 cam.matrix_world = _
    rw [inv4_eq_inv]
  · intro E
    rw [← mul_assoc]
    have h : camera.opencvFlip * camera.opencvFlip = 1 := by
      ext i j
      fin_cases i <;> fin_cases j <;>
        simp [camera.opencvFlip, Matrix.mul_apply, Fin.sum_univ_four,
          Matrix.one_apply, Matrix.vecHead, Matrix.vecTail]
    rw [h, one_mul]

/-- C10: rest-space extraction is frame-cursor pure: `extract_skeleton_data`
with `rest_space = True` and `extract_mesh_data` leave the scene's current
frame unchanged, whatever frame is current. -/
theorem C10_rest_extraction_pure (arm : ArmatureObj) (mesh : MeshObj)
    (s : Scene) :
    (animation.extract_skeleton_data arm true s).1 = s ∧
    (animation.extract_mesh_data mesh s).1 = s := by
  constructor
  · rfl
  · cases h : mesh.uv_active <;> simp [animation.extract_mesh_data, h]

/-- C1 (amended): every frame-range sampling call restores the scene's
current frame on normal completion.  (The original claim also promised the
restore when the call raises mid-range; `C1_counterexample` shows the code
has no such guarantee — there is no `try/finally` around the loop.) -/
theorem C1_frame_restore :
    (∀ (mesh : MeshObj) (arm : ArmatureObj) (s : Scene),
       ((animation.extract_verts_data mesh arm s).2).isSome = true →
       (animation.extract_verts_data mesh arm s).1 = s) ∧
    (∀ (arm : ArmatureObj) (s : Scene),
       ((animation.extract_skeleton_data arm false s).2).isSome = true →
       (animation.extract_skeleton_data arm false s).1 = s) ∧
    (∀ (arm : ArmatureObj) (s : Scene),
       ((dynamic.extract_joints arm s).2).isSome = true →
       (dynamic.extract_joints arm s).1 = s) ∧
    (∀ (arm : ArmatureObj) (mesh : MeshObj) (s : Scene),
       ((dynamic.extract_verts arm mesh s).2).isSome = true →
       (dynamic.extract_verts arm mesh s).1 = s) := by
  refine ⟨?_, ?_, ?_, ?_⟩
  · intro mesh arm s h
    simp only [animation.extract_verts_data] at h ⊢
    rcases hl : animation.sampleVertsLoop mesh
        (frameRange arm.frame_range.1 arm.frame_range.2) s [] with ⟨s1, o⟩
    rw [hl] at h
    cases o with
    | none => simp at h
    | some v => rfl
  · intro arm s h
    simp only [animation.extract_skeleton_data, Bool.false_eq_true,
      if_false] at h ⊢
    rcases hl : animation.poseLoop arm
        (frameRange arm.frame_range.1 arm.frame_range.2) s [] [] []
      with ⟨s1, o⟩
    rw [hl] at h
    cases o with
    | none => simp at h
    | some v =>
      rcases v with ⟨ms, ts, hs⟩
      rfl
  · intro arm s h
    simp only [dynamic.extract_joints] at h ⊢
    cases hr : dynamic.jointsRestLoop arm arm.bones with
    | none => rfl
    | some r =>
      rw [hr] at h
      rcases r with ⟨ns, ps, ts, hs, ms⟩
      rcases hl : dynamic.jointsPoseLoop arm
          (frameRange arm.frame_range.1 arm.frame_range.2) s [] with ⟨s1, o⟩
      rw [hl] at h
      cases o with
      | none => simp at h
      | some pms => rfl
  · intro arm mesh s h
    simp only [dynamic.extract_verts] at h ⊢
    rcases hl : animation.sampleVertsLoop mesh
        (frameRange arm.frame_range.1 arm.frame_range.2) s [] with ⟨s1, o⟩
    rw [hl] at h
    cases o with
    | none => simp at h
    | some v => rfl

/-- A trivially successful scene for the C1 witness: no bones, evaluated
mesh always available. -/
def c1wArm : ArmatureObj :=
  { bones := [], poseMatrix := fun _ _ => 1, poseHead := fun _ _ => ⟨0, 0, 0⟩,
    poseTail := fun _ _ => ⟨0, 0, 0⟩, matrix_world := 1, frame_range := (1, 2) }

/-- Companion mesh for the C1 witness. -/
def c1wMesh : MeshObj :=
  { vertices := [], polygons := [], polygonLoops := [], uv_active := some [],
    vertex_groups := [], matrix_world := 1, evalVerts := fun _ => some [] }

/-- Witness for C1: all four sampling calls, run successfully from frame 5,
leave the scene at frame 5. -/
theorem C1_frame_restore_witness :
    (animation.extract_verts_data c1wMesh c1wArm ⟨5⟩).1 = ⟨5⟩ ∧
    (animation.extract_skeleton_data c1wArm false ⟨5⟩).1 = ⟨5⟩ ∧
    (dynamic.extract_joints c1wArm ⟨5⟩).1 = ⟨5⟩ ∧
    (dynamic.extract_verts c1wArm c1wMesh ⟨5⟩).1 = ⟨5⟩ :=
  ⟨C1_frame_restore.1 c1wMesh c1wArm ⟨5⟩ (by decide),
   C1_frame_restore.2.1 c1wArm ⟨5⟩ (by decide),
   C1_frame_restore.2.2.1 c1wArm ⟨5⟩ (by decide),
   C1_frame_restore.2.2.2 c1wArm c1wMesh ⟨5⟩ (by decide)⟩

/-- Armature for the C1 counterexample: action range 1..3. -/
def c1Arm : ArmatureObj :=
  { bones := [], poseMatrix := fun _ _ => 1, poseHead := fun _ _ => ⟨0, 0, 0⟩,
    poseTail := fun _ _ => ⟨0, 0, 0⟩, matrix_world := 1, frame_range := (1, 3) }

/-- Mesh for the C1 counterexample: depsgraph evaluation raises at frame 2. -/
def c1Mesh : MeshObj :=
  { vertices := [], polygons := [], polygonLoops := [], uv_active := some [],
    vertex_groups := [], matrix_world := 1,
    evalVerts := fun f => if f = 2 then none else some [] }

/-- Counterexample to C1 as stated: a sampling call entered at frame 10
that raises at frame 2 propagates the exception and leaves the scene at
frame 2, not 10 — the current frame is NOT restored on the failure exit
path. -/
theorem C1_counterexample :
    (animation.extract_verts_data c1Mesh c1Arm ⟨10⟩).2 = none ∧
    (animation.extract_verts_data c1Mesh c1Arm ⟨10⟩).1 = ⟨2⟩ ∧
    (animation.extract_verts_data c1Mesh c1Arm ⟨10⟩).1 ≠ ⟨10⟩ := by decide

/-- An inverted frame range makes Python's `range(start, end + 1)` empty. -/
lemma frameRange_nil {start stop : Int} (h : stop < start) :
    frameRange start stop = [] := by
  unfold frameRange
  have h0 : (stop + 1 - start).toNat = 0 := Int.toNat_eq_zero.mpr (by omega)
  rw [h0]
  rfl

/-- C6 (amended): when `end < start` the sampling loop body runs zero times
and the call returns an empty vertex sequence with the frame restored; no
error of any kind is raised.  (The claimed `InvalidRangeError` does not
exist in the code — see `C6_counterexample`.) -/
theorem C6_inverted_range_returns_empty (mesh : MeshObj) (arm : ArmatureObj)
    (s : Scene) (h : arm.frame_range.2 < arm.frame_range.1) :
    animation.extract_verts_data mesh arm s = (s, some []) ∧
    dynamic.extract_verts arm mesh s = (s, some []) := by
  constructor
  · simp only [animation.extract_verts_data]
    rw [frameRange_nil h]
    rfl
  · simp only [dynamic.extract_verts]
    rw [frameRange_nil h]
    rfl

/-- Armature with an inverted action frame range (5 down to 3) for C6. -/
def c6Arm : ArmatureObj :=
  { bones := [], poseMatrix := fun _ _ => 1, poseHead := fun _ _ => ⟨0, 0, 0⟩,
    poseTail := fun _ _ => ⟨0, 0, 0⟩, matrix_world := 1, frame_range := (5, 3) }

/-- Companion mesh for C6 whose evaluation always succeeds. -/
def c6Mesh : MeshObj :=
  { vertices := [], polygons := [], polygonLoops := [], uv_active := some [],
    vertex_groups := [], matrix_world := 1, evalVerts := fun _ => some [] }

/-- Witness for C6: with range (5, 3) the extraction returns `(s, some [])`. -/
theorem C6_inverted_range_returns_empty_witness :
    c6Arm.frame_range.2 < c6Arm.frame_range.1 ∧
    animation.extract_verts_data c6Mesh c6Arm ⟨7⟩ = (⟨7⟩, some []) :=
  ⟨by decide, (C6_inverted_range_returns_empty c6Mesh c6Arm ⟨7⟩ (by decide)).1⟩

/-- Counterexample to C6 as stated: a frame range with `end < start` does
NOT make the sampling calls fail — both complete normally, returning an
empty sequence. -/
theorem C6_counterexample :
    c6Arm.frame_range.2 < c6Arm.frame_range.1 ∧
    (animation.extract_verts_data c6Mesh c6Arm ⟨7⟩).2 = some [] ∧
    (dynamic.extract_verts c6Arm c6Mesh ⟨7⟩).2 = some [] := by decide

/-- Looking a bone's own name up in the bone list always succeeds (it finds
the first bone with that name). -/
lemma find?_name_self (l : List BoneData) (b : BoneData) (hb : b ∈ l) :
    ∃ bq, l.find? (fun x => x.name = b.name) = some bq := by
  induction l with
  | nil => cases hb
  | cons a t ih =>
    by_cases ha : a.name = b.name
    · exact ⟨a, List.find?_cons_of_pos _ (by simpa using ha)⟩
    · rcases List.mem_cons.mp hb with rfl | hbt
      · exact absurd rfl ha
      · rcases ih hbt with ⟨bq, hq⟩
        rw [List.find?_cons_of_neg _ (by simpa using ha)]
        exact ⟨bq, hq⟩

/-- The rest-branch bone loop succeeds on any list of bones drawn from the
armature's own bone list, producing one entry per bone — there is no
duplicate-name detection anywhere in it. -/
lemma restLoop_ok (arm : ArmatureObj) (s : Scene) :
    ∀ bs : List BoneData, (∀ b ∈ bs, b ∈ arm.bones) →
    ∃ sk, animation.restLoop arm s bs = some sk ∧
      sk.bnames.length = bs.length := by
  intro bs
  induction bs with
  | nil => exact fun _ => ⟨⟨[], [], [], [], []⟩, rfl, rfl⟩
  | cons b t ih =>
    intro hsub
    obtain ⟨bq, hq⟩ := find?_name_self arm.bones b (hsub b (by simp))
    obtain ⟨sk, hsk, hlen⟩ := ih (fun x hx => hsub x (by simp [hx]))
    have hstep : animation.restLoop arm s (b :: t) =
        some ⟨b.name :: sk.bnames, b.parent :: sk.bnames_parent,
              (arm.matrix_world * bq.matrix_local) :: sk.matrixs,
              (applyPoint arm.matrix_world bq.tail_local) :: sk.tails,
              (applyPoint arm.matrix_world bq.head_local) :: sk.heads⟩ := by
      simp [animation.restLoop, animation.extract_bone_data, hq, hsk]
    exact ⟨_, hstep, by simpa using congrArg Nat.succ hlen⟩

/-- C7 (amended): skeleton extraction performs no duplicate-bone-name check:
for EVERY armature — duplicate names or not — the rest-space branch returns
a skeleton with exactly one entry per bone (name lookups resolve to the
first bone with the name). -/
theorem C7_no_duplicate_check (arm : ArmatureObj) (s : Scene) :
    ∃ sk : animation.SkelRest,
      (animation.extract_skeleton_data arm true s).2 =
        some (animation.SkelResult.rest sk) ∧
      sk.bnames.length = arm.bones.length := by
  obtain ⟨sk, hsk, hlen⟩ := restLoop_ok arm s arm.bones (fun _ h => h)
  exact ⟨sk, by simp [animation.extract_skeleton_data, hsk], hlen⟩

/-- Armature with two bones sharing the name "b", for C7. -/
def c7Arm : ArmatureObj :=
  { bones := [⟨"b", none, 1, ⟨0, 0, 0⟩, ⟨0, 1, 0⟩⟩,
              ⟨"b", none, 1, ⟨0, 0, 0⟩, ⟨0, 2, 0⟩⟩],
    poseMatrix := fun _ _ => 1, poseHead := fun _ _ => ⟨0, 0, 0⟩,
    poseTail := fun _ _ => ⟨0, 0, 0⟩, matrix_world := 1, frame_range := (0, 0) }

/-- Counterexample to C7 as stated: an armature with two bones named "b"
does NOT make skeleton extraction fail — it returns a skeleton (the claimed
`DuplicateBoneNameError` does not exist in the code). -/
theorem C7_counterexample :
    ¬ (c7Arm.bones.map (fun b => b.name)).Nodup ∧
    ((animation.extract_skeleton_data c7Arm true ⟨0⟩).2).isSome = true := by
  constructor
  · decide
  · decide

/-- Summing a list of finite numpy values is ordinary rational summation. -/
lemma npSum_map_val (f : ℚ → ℚ) (l : List ℚ) :
    npSum (l.map (fun w => NpVal.val (f w))) = NpVal.val ((l.map f).sum) := by
  induction l with
  | nil => rfl
  | cons a t ih => simp [npSum, ih, npAdd] at *; simp [npSum, ih, npAdd]

/-- Dividing every list element by a constant divides the sum. -/
lemma sum_map_div (l : List ℚ) (s : ℚ) :
    (l.map (fun w => w / s)).sum = l.sum / s := by
  induction l with
  | nil => simp
  | cons a t ih => simp [ih, add_div]

/-- Nonnegative rationals summing to zero are all zero. -/
lemma list_nonneg_sum_zero {l : List ℚ} (h0 : ∀ w ∈ l, 0 ≤ w)
    (hs : l.sum = 0) : ∀ w ∈ l, w = 0 := by
  induction l with
  | nil => simp
  | cons a t ih =>
    have ha : 0 ≤ a := h0 a (by simp)
    have ht : 0 ≤ t.sum := List.sum_nonneg (fun w hw => h0 w (by simp [hw]))
    have hsum : a + t.sum = 0 := by simpa using hs
    have ha0 : a = 0 := by linarith
    have hts : t.sum = 0 := by linarith
    intro w hw
    rcases List.mem_cons.mp hw with rfl | hwt
    · exact ha0
    · exact ih (fun x hx => h0 x (by simp [hx])) hts w hwt

/-- C2 (amended): with `normalize` requested, every raw weight row with a
nonzero sum is divided by its sum and afterwards sums exactly to 1 (hence
within 1e-5 of 1.0); but a row whose sum is zero is divided by `0.0` anyway
— there is no zero-sum guard in the code — so (its entries being the
nonnegative accumulated weights, all zero) every normalized entry is `nan`,
not zero. -/
theorem C2_weight_normalization (arm : ArmatureObj) (mesh : MeshObj) :
    animation.extract_skinning_weights_data arm mesh true =
      (animation.rawWeights arm mesh).map
        (fun row => row.map (fun w => npDiv w row.sum)) ∧
    ∀ row ∈ animation.rawWeights arm mesh,
      (row.sum ≠ 0 →
        npSum (row.map (fun w => npDiv w row.sum)) = NpVal.val 1) ∧
      (row.sum = 0 → (∀ w ∈ row, 0 ≤ w) →
        ∀ e ∈ row.map (fun w => npDiv w row.sum), e = NpVal.nan) := by
  constructor
  · rfl
  · intro row _hrow
    constructor
    · intro hs
      have hdiv : row.map (fun w => npDiv w row.sum)
          = row.map (fun w => NpVal.val (w / row.sum)) := by
        apply List.map_congr_left
        intro a _
        simp [npDiv, hs]
      rw [hdiv, npSum_map_val, sum_map_div, div_self hs]
    · intro hs hnn e he
      rcases List.mem_map.mp he with ⟨w, hw, rfl⟩
      have hw0 : w = 0 := list_nonneg_sum_zero hnn hs w hw
      simp [npDiv, hs, hw0]

/-- Armature for the C2 theorems: a single bone named "b". -/
def c2Arm : ArmatureObj :=
  { bones := [⟨"b", none, 1, ⟨0, 0, 0⟩, ⟨0, 1, 0⟩⟩],
    poseMatrix := fun _ _ => 1, poseHead := fun _ _ => ⟨0, 0, 0⟩,
    poseTail := fun _ _ => ⟨0, 0, 0⟩, matrix_world := 1, frame_range := (0, 0) }

/-- Mesh for the C2 counterexample: one vertex with NO group memberships,
so its weight row accumulates to all zeros. -/
def c2Mesh : MeshObj :=
  { vertices := [⟨⟨0, 0, 0⟩, []⟩], polygons := [], polygonLoops := [],
    uv_active := some [], vertex_groups := [], matrix_world := 1,
    evalVerts := fun _ => some [] }

/-- Counterexample to C2 as stated: the zero-sum row of the unbound vertex
is NOT left all-zero — it is divided by `0.0` and becomes `nan`, so its sum
is neither 0 nor within 1e-5 of 1. -/
theorem C2_counterexample :
    ¬ ∀ row ∈ animation.extract_skinning_weights_data c2Arm c2Mesh true,
        (∀ e ∈ row, e = NpVal.val 0) ∨
        npIsNearOne (npSum row) (1 / 100000) = true := by
  have hx : animation.extract_skinning_weights_data c2Arm c2Mesh true
      = [[NpVal.nan]] := by
    simp [animation.extract_skinning_weights_data, animation.rawWeights,
      animation.rowOfVertex, animation.vg_to_bone_map, c2Arm, c2Mesh, npDiv]
  intro h
  have h2 := h [NpVal.nan] (by rw [hx]; exact List.mem_singleton_self _)
  rcases h2 with h2 | h2
  · exact absurd (h2 NpVal.nan (by simp)) (by simp)
  · simp [npSum, npAdd, npIsNearOne] at h2

/-- Mesh for the C2 witness: one vertex bound to group "b" with weight 1/2. -/
def c2wMesh : MeshObj :=
  { vertices := [⟨⟨0, 0, 0⟩, [⟨0, 1/2⟩]⟩], polygons := [], polygonLoops := [],
    uv_active := some [], vertex_groups := ["b"], matrix_world := 1,
    evalVerts := fun _ => some [] }

/-- Witness for C2: the raw row `[1/2]` has nonzero sum and normalizes to
sum exactly 1. -/
theorem C2_weight_normalization_witness :
    ([(1 : ℚ)/2] ∈ animation.rawWeights c2Arm c2wMesh) ∧
    npSum ([(1 : ℚ)/2].map (fun w => npDiv w ([(1 : ℚ)/2]).sum)) = NpVal.val 1 :=
  ⟨by
    simp [animation.rawWeights, animation.rowOfVertex,
      animation.vg_to_bone_map, c2Arm, c2wMesh],
   ((C2_weight_normalization c2Arm c2wMesh).2 [(1 : ℚ)/2]
     (by simp [animation.rawWeights, animation.rowOfVertex,
           animation.vg_to_bone_map, c2Arm, c2wMesh])).1
     (by norm_num)⟩

/-- C3 (amended): the pose matrix returned by the code is the ABSOLUTE
canonical-bone→world-pose transform `matrix_world @ pose_bone.matrix`, not
the rest-to-pose delta.  The delta is obtained by composing with
`rest_matrix⁻¹` afterwards, and when the sampled frame is the rest pose
(pose transform equals the local rest transform) that composed delta —
not the returned matrix itself — is the identity. -/
theorem C3_pose_convention (arm : ArmatureObj) (name : String) (s : Scene)
    (bone : BoneData)
    (hfind : arm.bones.find? (fun b => b.name = name) = some bone) :
    dynamic.extract_rest_joints arm name =
      some (arm.matrix_world * bone.matrix_local,
            applyPoint arm.matrix_world bone.tail_local,
            applyPoint arm.matrix_world bone.head_local) ∧
    dynamic.extract_pose_joints arm name s =
      some (arm.matrix_world * arm.poseMatrix s.frame_current name) ∧
    (arm.poseMatrix s.frame_current name = bone.matrix_local →
     IsUnit (arm.matrix_world * bone.matrix_local).det →
     (arm.matrix_world * arm.poseMatrix s.frame_current name) *
       (arm.matrix_world * bone.matrix_local)⁻¹ = 1) := by
  have hmem : bone ∈ arm.bones := List.mem_of_find?_eq_some hfind
  have hpred := List.find?_some hfind
  have hany : arm.bones.any (fun b => b.name = name) = true :=
    List.any_eq_true.mpr ⟨bone, hmem, hpred⟩
  refine ⟨?_, ?_, ?_⟩
  · simp [dynamic.extract_rest_joints, hfind]
  · simp [dynamic.extract_pose_joints, hany]
  · intro hrest hdet
    rw [hrest]
    exact Matrix.mul_nonsing_inv _ hdet

/-- A world translation by (0,1,0): a rest transform that is not the
identity. -/
def c3tM : Mat4 :=
  Matrix.of ![![1, 0, 0, 0], ![0, 1, 0, 1], ![0, 0, 1, 0], ![0, 0, 0, 1]]

/-- Armature for the C3 counterexample: one bone "b" whose pose transform at
every frame equals its rest transform (the scene sits at the rest pose),
with a non-identity rest transform. -/
def c3Arm : ArmatureObj :=
  { bones := [⟨"b", none, c3tM, ⟨0, 0, 0⟩, ⟨0, 1, 0⟩⟩],
    poseMatrix := fun _ _ => c3tM, poseHead := fun _ _ => ⟨0, 0, 0⟩,
    poseTail := fun _ _ => ⟨0, 0, 0⟩, matrix_world := 1, frame_range := (0, 0) }

/-- Counterexample to C3 as stated: at a frame where every bone sits in its
rest pose, the extracted pose matrix is NOT the identity (it is the
absolute canonical→world transform, here a translation), refuting the
rest-to-pose-delta reading of `pose_matrix`. -/
theorem C3_counterexample :
    (∀ bone ∈ c3Arm.bones,
        c3Arm.poseMatrix (0 : Int) bone.name = bone.matrix_local) ∧
    dynamic.extract_pose_joints c3Arm "b" ⟨0⟩ ≠ some 1 := by
  constructor
  · intro bone hb
    obtain rfl := List.mem_singleton.mp hb
    rfl
  · intro h
    have h1 : c3tM = 1 := by
      simpa [dynamic.extract_pose_joints, c3Arm] using h
    have h3 := congrFun (congrFun h1 1) 3
    simp [c3tM, Matrix.one_apply] at h3

/-- Armature for the C3 witness: identity transforms everywhere. -/
def c3wArm : ArmatureObj :=
  { bones := [⟨"b", none, 1, ⟨0, 0, 0⟩, ⟨0, 1, 0⟩⟩],
    poseMatrix := fun _ _ => 1, poseHead := fun _ _ => ⟨0, 0, 0⟩,
    poseTail := fun _ _ => ⟨0, 0, 0⟩, matrix_world := 1, frame_range := (0, 0) }

/-- Witness for C3 at the identity armature. -/
theorem C3_pose_convention_witness :
    dynamic.extract_pose_joints c3wArm "b" ⟨0⟩ =
      some (c3wArm.matrix_world * c3wArm.poseMatrix 0 "b") ∧
    (c3wArm.matrix_world * c3wArm.poseMatrix 0 "b") *
      (c3wArm.matrix_world * (1 : Mat4))⁻¹ = 1 :=
  ⟨(C3_pose_convention c3wArm "b" ⟨0⟩ ⟨"b", none, 1, ⟨0, 0, 0⟩, ⟨0, 1, 0⟩⟩
      (by rfl)).2.1,
   (C3_pose_convention c3wArm "b" ⟨0⟩ ⟨"b", none, 1, ⟨0, 0, 0⟩, ⟨0, 1, 0⟩⟩
      (by rfl)).2.2 (by rfl) (by simp [c3wArm, Matrix.det_one])⟩

/-- Setting an in-range position and reading it back gives the new value. -/
lemma getD_set_self (l : List ℚ) (i : Nat) (a : ℚ) (h : i < l.length) :
    (l.set i a).getD i 0 = a := by
  induction l generalizing i with
  | nil => simp at h
  | cons x t ih =>
    cases i with
    | zero => rfl
    | succ n => exact ih n (by simpa using h)

/-- Setting one position does not change another. -/
lemma getD_set_ne (l : List ℚ) (i b : Nat) (a : ℚ) (h : i ≠ b) :
    (l.set i a).getD b 0 = l.getD b 0 := by
  induction l generalizing i b with
  | nil => rfl
  | cons x t ih =>
    cases i with
    | zero =>
      cases b with
      | zero => exact absurd rfl h
      | succ m => rfl
    | succ n =>
      cases b with
      | zero => rfl
      | succ m => exact ih n m (fun hc => h (by rw [hc]))

/-- Any entry of an all-zero row reads as zero. -/
lemma getD_replicate_zero (n b : Nat) :
    (List.replicate n (0 : ℚ)).getD b 0 = 0 := by
  induction n generalizing b with
  | zero => rfl
  | succ m ih =>
    cases b with
    | zero => rfl
    | succ k => exact ih k

/-- The weight left behind by the assignment loop, as seen through the
name→first-bone-index map: a left fold that replaces the accumulator with
`g.weight` whenever membership `g` resolves to bone `b` — i.e. the LAST
matching membership's weight, or `0` when none matches (see the two
`lastMatchWeight_append` lemmas). -/
def lastMatchWeight (vmap : List (Option Nat)) (gs : List VertexGroupEntry)
    (b : Nat) : ℚ :=
  gs.foldl
    (fun acc g => if vmap.getD g.group none = some b then g.weight else acc) 0

/-- A matching membership appended at the end wins outright. -/
lemma lastMatchWeight_append_match (vmap : List (Option Nat))
    (gs : List VertexGroupEntry) (g : VertexGroupEntry) (b : Nat)
    (h : vmap.getD g.group none = some b) :
    lastMatchWeight vmap (gs ++ [g]) b = g.weight := by
  simp only [lastMatchWeight, List.foldl_append, List.foldl_cons,
    List.foldl_nil]
  rw [if_pos h]

/-- A non-matching membership appended at the end changes nothing. -/
lemma lastMatchWeight_append_skip (vmap : List (Option Nat))
    (gs : List VertexGroupEntry) (g : VertexGroupEntry) (b : Nat)
    (h : ¬ vmap.getD g.group none = some b) :
    lastMatchWeight vmap (gs ++ [g]) b = lastMatchWeight vmap gs b := by
  simp only [lastMatchWeight, List.foldl_append, List.foldl_cons,
    List.foldl_nil]
  rw [if_neg h]

/-- The b-th entry after the assignment loop equals the last-matching-write
fold, for any starting row with position b in range. -/
lemma foldl_set_getD (vmap : List (Option Nat)) (b : Nat) :
    ∀ (gs : List VertexGroupEntry) (row : List ℚ), b < row.length →
    (gs.foldl (fun row grp =>
        match vmap.getD grp.group none with
        | none => row
        | some bone_id => row.set bone_id grp.weight) row).getD b 0
      = gs.foldl (fun acc grp =>
          if vmap.getD grp.group none = some b then grp.weight else acc)
          (row.getD b 0) := by
  intro gs
  induction gs with
  | nil => intro row _; rfl
  | cons g t ih =>
    intro row hb
    cases hvg : vmap.getD g.group none with
    | none =>
      simp only [List.foldl_cons, hvg]
      rw [if_neg (by simp)]
      exact ih row hb
    | some j =>
      simp only [List.foldl_cons, hvg]
      by_cases hjb : j = b
      · subst hjb
        rw [if_pos rfl, ih (row.set j g.weight) (by simpa using hb),
          getD_set_self row j g.weight hb]
      · rw [if_neg (by simp [hjb]), ih (row.set j g.weight) (by simpa using hb),
          getD_set_ne row j b g.weight hjb]

/-- Modelled from the claim's words (C8): the SUM of the weights of all
group memberships of vertex `v` whose group name matches bone `b`'s name. -/
def sumMatchWeightSpec (arm : ArmatureObj) (mesh : MeshObj) (v : VertexData)
    (b : Nat) : ℚ :=
  ((v.groups.filter (fun g =>
      mesh.vertex_groups.get? g.group =
        some ((arm.bones.map (fun x => x.name)).getD b ""))).map
    (fun g => g.weight)).sum

/-- C8 (amended): the pre-normalization weight entry for vertex `v` and
bone `b` is the LAST write, not a sum: it equals the weight of the last
membership of `v` that resolves (via the name→first-bone-index map) to
bone `b`, or `0` when none does; non-resolving memberships contribute
nothing.  The row sits in the extraction output. -/
theorem C8_weights_last_write (arm : ArmatureObj) (mesh : MeshObj)
    (v : VertexData) (hv : v ∈ mesh.vertices) (b : Nat)
    (hb : b < arm.bones.length) :
    (animation.rowOfVertex (animation.vg_to_bone_map arm mesh)
        arm.bones.length v).getD b 0
      = lastMatchWeight (animation.vg_to_bone_map arm mesh) v.groups b ∧
    ((animation.rowOfVertex (animation.vg_to_bone_map arm mesh)
        arm.bones.length v).map NpVal.val)
      ∈ animation.extract_skinning_weights_data arm mesh false := by
  constructor
  · unfold animation.rowOfVertex lastMatchWeight
    rw [foldl_set_getD _ b v.groups _ (by simpa using hb),
      getD_replicate_zero]
  · show _ ∈ (animation.rawWeights arm mesh).map (fun row => row.map NpVal.val)
    exact List.mem_map_of_mem _ (List.mem_map_of_mem _ hv)

/-- Armature for the C8 theorems: a single bone named "b". -/
def c8Arm : ArmatureObj :=
  { bones := [⟨"b", none, 1, ⟨0, 0, 0⟩, ⟨0, 1, 0⟩⟩],
    poseMatrix := fun _ _ => 1, poseHead := fun _ _ => ⟨0, 0, 0⟩,
    poseTail := fun _ _ => ⟨0, 0, 0⟩, matrix_world := 1, frame_range := (0, 0) }

/-- A vertex with two memberships (weights 3/10 and 1/2) in two groups that
both carry the bone's name. -/
def c8Vertex : VertexData := ⟨⟨0, 0, 0⟩, [⟨0, 3/10⟩, ⟨1, 1/2⟩]⟩

/-- Mesh for the C8 theorems: both vertex groups are named "b". -/
def c8Mesh : MeshObj :=
  { vertices := [c8Vertex], polygons := [], polygonLoops := [],
    uv_active := some [], vertex_groups := ["b", "b"], matrix_world := 1,
    evalVerts := fun _ => some [] }

/-- Counterexample to C8 as stated: with two memberships whose group names
both match bone "b", the stored entry is the LAST weight 1/2 — not the
accumulated sum 3/10 + 1/2 = 4/5 the claim requires. -/
theorem C8_counterexample :
    ((animation.extract_skinning_weights_data c8Arm c8Mesh false).getD 0
        []).getD 0 (NpVal.val 0) = NpVal.val (1/2) ∧
    sumMatchWeightSpec c8Arm c8Mesh c8Vertex 0 = 4/5 ∧
    NpVal.val ((1 : ℚ)/2) ≠ NpVal.val (4/5) := by
  refine ⟨?_, ?_, ?_⟩
  · simp [animation.extract_skinning_weights_data, animation.rawWeights,
      animation.rowOfVertex, animation.vg_to_bone_map, c8Arm, c8Mesh, c8Vertex]
  · norm_num [sumMatchWeightSpec, c8Arm, c8Mesh, c8Vertex]
  · intro h
    rw [NpVal.val.injEq] at h
    norm_num at h

/-- Witness for C8 at the concrete two-membership vertex. -/
theorem C8_weights_last_write_witness :
    (animation.rowOfVertex (animation.vg_to_bone_map c8Arm c8Mesh)
        c8Arm.bones.length c8Vertex).getD 0 0
      = lastMatchWeight (animation.vg_to_bone_map c8Arm c8Mesh)
          c8Vertex.groups 0 ∧
    ((animation.rowOfVertex (animation.vg_to_bone_map c8Arm c8Mesh)
        c8Arm.bones.length c8Vertex).map NpVal.val)
      ∈ animation.extract_skinning_weights_data c8Arm c8Mesh false :=
  C8_weights_last_write c8Arm c8Mesh c8Vertex (by simp [c8Mesh]) 0
    (by simp [c8Arm])

/-- The rest-branch loop returns one name per processed bone. -/
lemma restLoop_length (arm : ArmatureObj) (s : Scene) :
    ∀ (bs : List BoneData) (sk : animation.SkelRest),
    animation.restLoop arm s bs = some sk → sk.bnames.length = bs.length := by
  intro bs
  induction bs with
  | nil =>
    intro sk h
    simp only [animation.restLoop, Option.some.injEq] at h
    subst h
    rfl
  | cons b t ih =>
    intro sk h
    simp only [animation.restLoop] at h
    cases hx : animation.extract_bone_data arm b.name true s with
    | none => simp only [hx] at h; exact Option.noConfusion h
    | some mth =>
      rcases mth with ⟨m, tl, hd⟩
      simp only [hx] at h
      cases hr : animation.restLoop arm s t with
      | none => simp only [hr] at h; exact Option.noConfusion h
      | some acc =>
        simp only [hr, Option.some.injEq] at h
        subst h
        simpa using ih acc hr

/-- The per-frame bone loop of the pose branch returns one matrix per
processed bone. -/
lemma poseBones_length (arm : ArmatureObj) (s : Scene) :
    ∀ (bs : List BoneData) (ms : List Mat4) (ts hs : List Vec3),
    animation.poseBonesAtFrame arm s bs = some (ms, ts, hs) →
    ms.length = bs.length := by
  intro bs
  induction bs with
  | nil =>
    intro ms ts hs h
    simp only [animation.poseBonesAtFrame, Option.some.injEq,
      Prod.mk.injEq] at h
    obtain ⟨h1, _, _⟩ := h
    subst h1
    rfl
  | cons b t ih =>
    intro ms ts hs h
    simp only [animation.poseBonesAtFrame] at h
    cases hx : animation.extract_bone_data arm b.name false s with
    | none => simp only [hx] at h; exact Option.noConfusion h
    | some mth =>
      rcases mth with ⟨m, tl, hd⟩
      simp only [hx] at h
      cases hr : animation.poseBonesAtFrame arm s t with
      | none => simp only [hr] at h; exact Option.noConfusion h
      | some acc =>
        rcases acc with ⟨ams, ats, ahs⟩
        simp only [hr, Option.some.injEq, Prod.mk.injEq] at h
        obtain ⟨h1, _, _⟩ := h
        subst h1
        simpa using ih ams ats ahs hr

/-- Every pose-matrix frame row produced by the frame loop has one matrix
per armature bone (given that the rows already accumulated do). -/
lemma poseLoop_rows (arm : ArmatureObj) :
    ∀ (frames : List Int) (s : Scene) accM accT accH s'
      (ms : List (List Mat4)) (ts hs : List (List Vec3)),
    animation.poseLoop arm frames s accM accT accH = (s', some (ms, ts, hs)) →
    (∀ fr ∈ accM, fr.length = arm.bones.length) →
    ∀ fr ∈ ms, fr.length = arm.bones.length := by
  intro frames
  induction frames with
  | nil =>
    intro s accM accT accH s' ms ts hs h hacc
    simp only [animation.poseLoop, Prod.mk.injEq, Option.some.injEq] at h
    obtain ⟨-, h1, -, -⟩ := h
    subst h1
    exact hacc
  | cons f fs ih =>
    intro s accM accT accH s' ms ts hs h hacc
    simp only [animation.poseLoop] at h
    cases hb : animation.poseBonesAtFrame arm (frame_set s f) arm.bones with
    | none =>
      simp only [hb, Prod.mk.injEq] at h
      exact absurd h.2 (by simp)
    | some row3 =>
      rcases row3 with ⟨bms, bts, bhs⟩
      simp only [hb] at h
      refine ih (frame_set s f) (accM ++ [bms]) (accT ++ [bts])
        (accH ++ [bhs]) s' ms ts hs h ?_
      intro fr hfr
      rcases List.mem_append.mp hfr with hfr | hfr
      · exact hacc fr hfr
      · rw [List.mem_singleton.mp hfr]
        exact poseBones_length arm (frame_set s f) arm.bones bms bts bhs hb

/-- Every sampled deformed-verts frame row has one position per evaluated
vertex, hence (under the host vertex-count guarantee) per rest vertex. -/
lemma sampleLoop_rows (mesh : MeshObj) (N : Nat)
    (hEval : ∀ f vs, mesh.evalVerts f = some vs → vs.length = N) :
    ∀ (frames : List Int) (s : Scene) acc s' (verts : List (List Vec3)),
    animation.sampleVertsLoop mesh frames s acc = (s', some verts) →
    (∀ fr ∈ acc, fr.length = N) →
    ∀ fr ∈ verts, fr.length = N := by
  intro frames
  induction frames with
  | nil =>
    intro s acc s' verts h hacc
    simp only [animation.sampleVertsLoop, Prod.mk.injEq,
      Option.some.injEq] at h
    obtain ⟨-, h1⟩ := h
    subst h1
    exact hacc
  | cons f fs ih =>
    intro s acc s' verts h hacc
    simp only [animation.sampleVertsLoop] at h
    cases he : mesh.evalVerts f with
    | none =>
      simp only [he, Prod.mk.injEq] at h
      exact absurd h.2 (by simp)
    | some vs =>
      simp only [he] at h
      refine ih (frame_set s f)
        (acc ++ [vs.map (fun v => applyPoint mesh.matrix_world v)]) s' verts
        h ?_
      intro fr hfr
      rcases List.mem_append.mp hfr with hfr | hfr
      · exact hacc fr hfr
      · rw [List.mem_singleton.mp hfr]
        rw [List.length_map]
        exact hEval f vs he

/-- The assignment loop never changes the row's length. -/
lemma foldl_set_length (vmap : List (Option Nat)) :
    ∀ (gs : List VertexGroupEntry) (row : List ℚ),
    (gs.foldl (fun row grp =>
        match vmap.getD grp.group none with
        | none => row
        | some bone_id => row.set bone_id grp.weight) row).length
      = row.length := by
  intro gs
  induction gs with
  | nil => intro row; rfl
  | cons g t ih =>
    intro row
    cases hvg : vmap.getD g.group none with
    | none => simp only [List.foldl_cons, hvg]; exact ih row
    | some j =>
      simp only [List.foldl_cons, hvg]
      rw [ih (row.set j g.weight), List.length_set]

/-- Each raw weight row has one column per bone. -/
lemma rowOfVertex_length (vmap : List (Option Nat)) (n : Nat)
    (v : VertexData) : (animation.rowOfVertex vmap n v).length = n := by
  unfold animation.rowOfVertex
  rw [foldl_set_length, List.length_replicate]

/-- Shape decomposition of a successful full extraction: name count, pose
rows, weight rows/columns and rest-vertex count are aligned to the armature
and mesh; deformed-verts rows align to the rest vertices IF the host's
evaluated meshes preserve the vertex count. -/
lemma extract_all_data_shapes (arm : ArmatureObj) (mesh : MeshObj)
    (s s' : Scene) (d : animation.AllData)
    (h : animation.extract_all_data arm mesh s = (s', some d)) :
    d.bnames.length = arm.bones.length ∧
    (∀ fr ∈ d.pose_matrixs, fr.length = arm.bones.length) ∧
    (∀ row ∈ d.lbs_weights, row.length = arm.bones.length) ∧
    d.lbs_weights.length = mesh.vertices.length ∧
    d.rest_verts.length = mesh.vertices.length ∧
    ((∀ f vs, mesh.evalVerts f = some vs → vs.length = mesh.vertices.length) →
     ∀ fr ∈ d.pose_verts, fr.length = mesh.vertices.length) := by
  simp only [animation.extract_all_data] at h
  rcases h1 : animation.extract_skeleton_data arm true s with ⟨s1, o1⟩
  cases o1 with
  | none => simp only [h1] at h; simp at h
  | some r1 =>
    cases r1 with
    | pose pm0 pt0 ph0 => simp only [h1] at h; simp at h
    | rest skel =>
      rcases h2 : animation.extract_mesh_data mesh s1 with ⟨s2, o2⟩
      cases o2 with
      | none => simp only [h1, h2] at h; simp at h
      | some md =>
        rcases md with ⟨rv, fc, uvs, fuv⟩
        rcases h3 : animation.extract_skeleton_data arm false s2 with ⟨s3, o3⟩
        cases o3 with
        | none => simp only [h1, h2, h3] at h; simp at h
        | some r3 =>
          cases r3 with
          | rest skel3 => simp only [h1, h2, h3] at h; simp at h
          | pose pm pt ph =>
            rcases h4 : animation.extract_verts_data mesh arm s3 with ⟨s4, o4⟩
            cases o4 with
            | none => simp only [h1, h2, h3, h4] at h; simp at h
            | some pv =>
              simp only [h1, h2, h3, h4, Prod.mk.injEq,
                Option.some.injEq] at h
              obtain ⟨-, hd⟩ := h
              subst hd
              -- rest skeleton: restLoop succeeded with result skel
              have hb := congrArg Prod.snd h1
              simp only [animation.extract_skeleton_data, if_true,
                Option.map_eq_some'] at hb
              obtain ⟨rskel, hrl, hrr⟩ := hb
              have hrsk : rskel = skel := by
                injection hrr with h'
              subst hrsk
              -- pose skeleton: poseLoop succeeded with rows pm
              have hp := congrArg Prod.snd h3
              simp only [animation.extract_skeleton_data,
                Bool.false_eq_true, if_false] at hp
              rcases hpl : animation.poseLoop arm
                  (frameRange arm.frame_range.1 arm.frame_range.2) s2 [] [] []
                with ⟨sx, ox⟩
              rw [hpl] at hp
              cases ox with
              | none => simp at hp
              | some row3 =>
                rcases row3 with ⟨ms, ts, hs⟩
                simp only [Option.some.injEq,
                  animation.SkelResult.pose.injEq] at hp
                obtain ⟨hms, -, -⟩ := hp
                subst hms
                -- deformed verts: sampleVertsLoop succeeded with rows pv
                have hv := congrArg Prod.snd h4
                simp only [animation.extract_verts_data] at hv
                rcases hsl : animation.sampleVertsLoop mesh
                    (frameRange arm.frame_range.1 arm.frame_range.2) s3 []
                  with ⟨sy, oy⟩
                rw [hsl] at hv
                cases oy with
                | none => simp at hv
                | some verts =>
                  simp only [Option.some.injEq] at hv
                  subst hv
                  -- rest mesh: vertex positions are one per mesh vertex
                  have hm := congrArg Prod.snd h2
                  simp only [animation.extract_mesh_data] at hm
                  cases hu : mesh.uv_active with
                  | none => rw [hu] at hm; simp at hm
                  | some uvd =>
                    rw [hu] at hm
                    simp only [Option.some.injEq, Prod.mk.injEq] at hm
                    obtain ⟨hrv, -, -, -⟩ := hm
                    refine ⟨restLoop_length arm s arm.bones rskel hrl, ?_,
                      ?_, ?_, ?_, ?_⟩
                    · exact poseLoop_rows arm _ s2 [] [] [] sx ms ts hs hpl
                        (fun fr hfr => absurd hfr (List.not_mem_nil fr))
                    · intro row hrow
                      have hrow' : row ∈ (animation.rawWeights arm mesh).map
                          (fun r => r.map (fun w => npDiv w r.sum)) := hrow
                      rcases List.mem_map.mp hrow' with ⟨r0, hr0, rfl⟩
                      rcases List.mem_map.mp hr0 with ⟨v, -, rfl⟩
                      rw [List.length_map, rowOfVertex_length]
                    · show ((animation.rawWeights arm mesh).map _).length = _
                      rw [List.length_map]
                      exact congrArg List.length
                        (by rfl : animation.rawWeights arm mesh
                            = mesh.vertices.map _) ▸
                        List.length_map mesh.vertices _
                    · rw [← hrv, List.length_map]
                    · intro hEval
                      exact sampleLoop_rows mesh mesh.vertices.length hEval _
                        s3 [] sy verts hsl
                        (fun fr hfr => absurd hfr (List.not_mem_nil fr))

/-- The skeleton/weights alignment checks of C9 on an extraction result:
each pose frame has one matrix per bone name, each weight row one column
per bone name, and the weight matrix one row per rest vertex. -/
def shapesCore : Option animation.AllData → Bool :=
  fun o => o.all (fun d =>
    (d.pose_matrixs.all (fun fr => fr.length == d.bnames.length) &&
     d.lbs_weights.all (fun row => row.length == d.bnames.length)) &&
    (d.lbs_weights.length == d.rest_verts.length))

/-- The deformed-verts alignment check of C9: each sampled frame has one
position per rest vertex. -/
def shapesVerts : Option animation.AllData → Bool :=
  fun o => o.all (fun d =>
    d.pose_verts.all (fun fr => fr.length == d.rest_verts.length))

/-- C9 (amended): every dataset produced by the full extraction keeps
`pose_matrix.shape[1] == len(names) == weights.shape[1]` and
`rest_verts.shape[0] == weights.shape[0]` unconditionally; the remaining
alignment `verts.shape[1] == rest_verts.shape[0]` holds PROVIDED the host's
evaluated (post-modifier) meshes have as many vertices as the rest mesh —
the code nowhere checks this (see `C9_counterexample`). -/
theorem C9_index_alignment (arm : ArmatureObj) (mesh : MeshObj) (s : Scene) :
    shapesCore (animation.extract_all_data arm mesh s).2 = true ∧
    ((∀ f vs, mesh.evalVerts f = some vs → vs.length = mesh.vertices.length) →
     shapesVerts (animation.extract_all_data arm mesh s).2 = true) := by
  rcases hx : animation.extract_all_data arm mesh s with ⟨s', o⟩
  cases o with
  | none => exact ⟨rfl, fun _ => rfl⟩
  | some d =>
    obtain ⟨hbn, hpm, hwr, hwl, hrv, hpv⟩ :=
      extract_all_data_shapes arm mesh s s' d hx
    constructor
    · simp only [shapesCore, Option.all, Bool.and_eq_true, List.all_eq_true,
        beq_iff_eq]
      refine ⟨⟨?_, ?_⟩, ?_⟩
      · intro fr hfr; rw [hpm fr hfr, hbn]
      · intro row hrow; rw [hwr row hrow, hbn]
      · rw [hwl, hrv]
    · intro hEval
      simp only [shapesVerts, Option.all, List.all_eq_true, beq_iff_eq]
      intro fr hfr
      rw [hpv hEval fr hfr, hrv]

/-- Armature for the C9 theorems: one bone, one animation frame. -/
def c9Arm : ArmatureObj :=
  { bones := [⟨"b", none, 1, ⟨0, 0, 0⟩, ⟨0, 1, 0⟩⟩],
    poseMatrix := fun _ _ => 1, poseHead := fun _ _ => ⟨0, 0, 0⟩,
    poseTail := fun _ _ => ⟨0, 0, 0⟩, matrix_world := 1, frame_range := (0, 0) }

/-- Mesh for the C9 counterexample: ONE rest vertex, but the evaluated
(post-modifier) mesh yields TWO vertices per frame. -/
def c9Mesh : MeshObj :=
  { vertices := [⟨⟨0, 0, 0⟩, []⟩], polygons := [], polygonLoops := [],
    uv_active := some [], vertex_groups := [], matrix_world := 1,
    evalVerts := fun _ => some [⟨0, 0, 0⟩, ⟨0, 0, 0⟩] }

/-- Counterexample to C9 as stated: when a modifier changes the evaluated
vertex count, the full extraction still completes and returns
`verts.shape[1] = 2` against `rest_verts.shape[0] = 1` — the alignment
fails, with no check in the code. -/
theorem C9_counterexample :
    shapesVerts (animation.extract_all_data c9Arm c9Mesh ⟨0⟩).2 = false := by
  decide

/-- Mesh for the C9 witness: the evaluated mesh keeps the single vertex. -/
def c9wMesh : MeshObj :=
  { vertices := [⟨⟨0, 0, 0⟩, []⟩], polygons := [], polygonLoops := [],
    uv_active := some [], vertex_groups := [], matrix_world := 1,
    evalVerts := fun _ => some [⟨0, 0, 0⟩] }

/-- Witness for C9 on a well-behaved scene. -/
theorem C9_index_alignment_witness :
    shapesCore (animation.extract_all_data c9Arm c9wMesh ⟨0⟩).2 = true ∧
    shapesVerts (animation.extract_all_data c9Arm c9wMesh ⟨0⟩).2 = true :=
  ⟨(C9_index_alignment c9Arm c9wMesh ⟨0⟩).1,
   (C9_index_alignment c9Arm c9wMesh ⟨0⟩).2 (by
     intro f vs h
     injection h with h2
     rw [← h2]
     rfl)⟩
